import Mathlib

/-!
# Verification of the `httpie` CLI (Rust) against its specification

Shallow embedding of `src/main.rs` of the `moyu-jun/httpie` repository:
a small httpie clone that parses a subcommand (get / post / put / delete),
validates URLs and `key=value` pairs with clap value parsers, issues the
request through a `reqwest` client configured with two default headers,
and pretty-prints the response (syntax highlighting dispatched on the
declared content type).

Pure helpers (`KeyValue::from_str`, `parse_url`, `parse_key_value`,
`print_body`, `get_content_type`, the form-body construction of `post` /
`put`, and the dispatch in `main`) are translated directly.  Behaviour of
the external `url` and `mime` crates and of `reqwest`'s header handling is
modelled from the specification where needed (each such definition says so
in its doc comment).
-/

namespace Httpie

/-- Whether an `Except` result is a success.  (`Ok(_)` in Rust.) -/
def exceptIsOk : Except ε α → Bool
  | .ok _ => true
  | .error _ => false

/-- `struct KeyValue { key: String, value: String }` from `src/main.rs`. -/
structure KeyValue where
  key : String
  value : String
deriving Repr, DecidableEq

/-- Split a character list at the first occurrence of `sep`:
`none` when `sep` does not occur, otherwise the characters strictly before
the first `sep` paired with everything strictly after it. -/
def splitFirst (sep : Char) : List Char → Option (List Char × List Char)
  | [] => none
  | c :: cs =>
    if c = sep then some ([], cs)
    else (splitFirst sep cs).map (fun p => (c :: p.1, p.2))

/-- Rust's `s.splitn(2, sep)`: at most two parts, split at the first
occurrence of `sep` only. -/
def splitn2 (sep : Char) (l : List Char) : List (List Char) :=
  match splitFirst sep l with
  | none => [l]
  | some (a, b) => [a, b]

/-- `impl FromStr for KeyValue` (`src/main.rs`):
`let parts: Vec<&str> = s.splitn(2, '=').collect();`
`if parts.len() != 2 { return Err(anyhow!("Invalid key-value pair: {}", s)); }`
then `key = parts[0]`, `value = parts[1]`. -/
def KeyValue.from_str (s : String) : Except String KeyValue :=
  let parts := splitn2 '=' s.data
  if h : parts.length = 2 then
    Except.ok ⟨⟨parts.get ⟨0, by omega⟩⟩, ⟨parts.get ⟨1, by omega⟩⟩⟩
  else
    Except.error ("Invalid key-value pair: " ++ s)

/-- `fn parse_key_value(kv: &str) -> Result<KeyValue> { kv.parse() }` -/
def parse_key_value (kv : String) : Except String KeyValue :=
  KeyValue.from_str kv

/-- A scheme character after the first: ASCII alphanumeric or `+`, `-`, `.`
(RFC 3986 scheme grammar, as assumed by the spec). -/
def isSchemeChar (c : Char) : Bool :=
  c.isAlphanum || c = '+' || c = '-' || c = '.'

/-- A valid URL scheme: a letter followed by scheme characters. -/
def validScheme (l : List Char) : Bool :=
  match l with
  | [] => false
  | c :: cs => c.isAlpha && cs.all isSchemeChar

/-- Modelled from the spec: the validity check of the external `url` crate
(`s.parse::<Url>()` in `parse_url`), which is not part of this repository.
The spec states that strings lacking a scheme and authority (e.g. `"abc"`)
are rejected and that well-formed absolute URLs such as
`"http://abc.xyz"` and `"https://httpbin.org/post"` are accepted; we model
this as: a valid scheme, followed by `://` and a nonempty authority. -/
def isValidUrl (s : String) : Bool :=
  match splitFirst ':' s.data with
  | none => false
  | some (scheme, rest) =>
    validScheme scheme &&
    (match rest with
     | '/' :: '/' :: host => !host.isEmpty
     | _ => false)

/-- `fn parse_url(s: &str) -> Result<String>` from `src/main.rs`:
parse with the `url` crate for validation only, and on success return the
**original** input string (`Ok(s.into())`), not the parsed URL. -/
def parse_url (s : String) : Except String String :=
  if isValidUrl s then Except.ok s
  else Except.error ("invalid URL: " ++ s)

/-- A MIME media type: top-level type, subtype, and parameters.
Equality (`DecidableEq`) compares all three components, mirroring the
`mime` crate's `PartialEq`, under which `text/plain; charset=utf-8` is
*not* equal to the constant `TEXT_PLAIN`. -/
structure Mime where
  type : String
  subtype : String
  params : List (String × String)
deriving Repr, DecidableEq

/-- `mime::APPLICATION_JSON`. -/
def APPLICATION_JSON : Mime := ⟨"application", "json", []⟩

/-- `mime::TEXT_PLAIN`. -/
def TEXT_PLAIN : Mime := ⟨"text", "plain", []⟩

/-- Split a character list at every occurrence of `sep`. -/
def splitAll (sep : Char) : List Char → List (List Char)
  | [] => [[]]
  | c :: cs =>
    match splitAll sep cs with
    | [] => [[]]
    | x :: rest => if c = sep then [] :: x :: rest else (c :: x) :: rest

/-- Strip leading and trailing whitespace from a character list. -/
def trimChars (l : List Char) : List Char :=
  ((l.dropWhile Char.isWhitespace).reverse.dropWhile Char.isWhitespace).reverse

/-- Lowercase every character of a list. -/
def lowerChars (l : List Char) : List Char :=
  l.map Char.toLower

/-- One `key=value` MIME parameter, trimmed and lowercased. -/
def parseMimeParam (p : List Char) : Option (String × String) :=
  match splitAll '=' (lowerChars (trimChars p)) with
  | [k, v] => if k.isEmpty || v.isEmpty then none else some (⟨k⟩, ⟨v⟩)
  | _ => none

/-- Modelled from the spec: parsing a content-type header value with the
external `mime` crate (`v.parse::<Mime>()` in `get_content_type`), which
is not part of this repository.  The value is split at `;` into a
`type/subtype` essence followed by `key=value` parameters; any malformed
component makes the whole parse fail. -/
def parseMime (s : String) : Option Mime :=
  match splitAll ';' s.data with
  | [] => none
  | essence :: rest =>
    match splitAll '/' (lowerChars (trimChars essence)) with
    | [t, st] =>
      if t.isEmpty || st.isEmpty then none
      else (rest.mapM parseMimeParam).map (fun ps => ⟨⟨t⟩, ⟨st⟩, ps⟩)
    | _ => none

/-- What the body-rendering step does with the response body: invoke the
`syntect` highlighter with a syntax-extension hint (`print_syntect(body,
ext)`), or print the raw text (`println!("{}", body)`). -/
inductive RenderAction where
  | highlight (ext : String) (body : String)
  | printRaw (body : String)
deriving Repr, DecidableEq

/-- `fn print_body(m: Option<Mime>, body: &str)` from `src/main.rs`:
`Some(m) if m == mime::APPLICATION_JSON => print_syntect(body, "json")`,
`Some(m) if m == mime::TEXT_PLAIN => print_syntect(body, "html")`,
`_ => println!("{}", body)`. -/
def print_body (m : Option Mime) (body : String) : RenderAction :=
  match m with
  | some m =>
    if m = APPLICATION_JSON then RenderAction.highlight "json" body
    else if m = TEXT_PLAIN then RenderAction.highlight "html" body
    else RenderAction.printRaw body
  | none => RenderAction.printRaw body

/-- Modelled from the spec: `HeaderValue::to_str` of the `http` crate
(used in `get_content_type`) succeeds exactly when every byte of the value
is visible ASCII or space. -/
def isVisibleAscii (c : Char) : Bool :=
  decide (32 ≤ c.toNat ∧ c.toNat ≤ 126)

/-- `fn get_content_type(response: &Response) -> Option<Mime>` from
`src/main.rs`, with the response abstracted to its header list (header
lookup is case-insensitive, as in `HeaderMap`):
`response.headers().get(header::CONTENT_TYPE).map(|v| v.to_str().unwrap().parse().unwrap())`.
The two `unwrap`s are embedded as `Except.error` (a panic aborting the
invocation); a missing header maps to `Except.ok none`. -/
def get_content_type (headers : List (String × String)) :
    Except String (Option Mime) :=
  match headers.find? (fun h => lowerChars h.1.data == "content-type".data) with
  | none => Except.ok none
  | some (_, v) =>
    if v.data.all isVisibleAscii then
      match parseMime v with
      | some m => Except.ok (some m)
      | none => Except.error "called Option.unwrap on a None value: mime parse"
    else Except.error "called Result.unwrap on an Err value: to_str"

/-- The form body built by `fn post` in `src/main.rs`:
`let mut body = HashMap::new(); for pair in args.body.iter() { body.insert(&pair.key, &pair.value); }`.
The `HashMap` is embedded as its lookup function; `insert` overwrites. -/
def postFormBody (body : List KeyValue) : String → Option String :=
  body.foldl
    (fun m kv => fun k => if k = kv.key then some kv.value else m k)
    (fun _ => none)

/-- The form body built by `fn put` in `src/main.rs` (same loop as `post`):
`let mut body = HashMap::new(); for pair in args.body.iter() { body.insert(&pair.key, &pair.value); }`. -/
def putFormBody (body : List KeyValue) : String → Option String :=
  body.foldl
    (fun m kv => fun k => if k = kv.key then some kv.value else m k)
    (fun _ => none)

/-- `enum HttpMethod { Get(Get), Post(Post), Put(Put), Delete(Delete) }`
with each variant's clap-parsed arguments inlined. -/
inductive HttpMethod where
  | get (url : String)
  | post (url : String) (body : List KeyValue)
  | put (url : String) (body : List KeyValue)
  | delete (url : String)
deriving Repr

/-- `struct Cli { command: Option<HttpMethod> }`. -/
structure Cli where
  command : Option HttpMethod

/-- The reqwest `Client`, abstracted to its default headers
(`Client::builder().default_headers(headers).build()`). -/
structure Client where
  defaultHeaders : List (String × String)

/-- An HTTP request as issued by the client, abstracted to verb, URL and
headers. -/
structure Request where
  verb : String
  url : String
  headers : List (String × String)
deriving Repr, DecidableEq

/-- The client built in `main`:
`headers.insert("x-power-by", "Rust".parse()?);`
`headers.insert(header::USER_AGENT, "Rust Httpie".parse()?);`
`Client::builder().default_headers(headers).build()?`. -/
def mainClient : Client :=
  ⟨[("x-power-by", "Rust"), ("user-agent", "Rust Httpie")]⟩

/-- Modelled from the spec: reqwest applies the client's default headers
to every request it sends.  The request issued by `get` / `post` / `put` /
`delete` for a given parsed subcommand. -/
def issuedRequest (client : Client) : HttpMethod → Request
  | .get u => ⟨"GET", u, client.defaultHeaders⟩
  | .post u _ => ⟨"POST", u, client.defaultHeaders⟩
  | .put u _ => ⟨"PUT", u, client.defaultHeaders⟩
  | .delete u => ⟨"DELETE", u, client.defaultHeaders⟩

/-- An observable effect of one invocation: printing a line, or issuing a
network request. -/
inductive Action where
  | printLine (s : String)
  | netRequest (r : Request)
deriving Repr, DecidableEq

/-- Whether an action is a network request. -/
def Action.isNetRequest : Action → Bool
  | .netRequest _ => true
  | _ => false

/-- The dispatch in `fn main` of `src/main.rs`, abstracted to the actions
it initiates and the process exit code:
`Some(Get/Post/Put/Delete) => get/post/put/delete(client, args).await?`
(each of which sends one request through the shared client),
`None => println!("No HTTP method specified.")`; the function then returns
`Ok(result)`, i.e. exit code 0.  Response printing, which depends on the
network reply, is outside the model. -/
def mainRun (cli : Cli) : List Action × Nat :=
  match cli.command with
  | none => ([Action.printLine "No HTTP method specified."], 0)
  | some m => ([Action.netRequest (issuedRequest mainClient m)], 0)

/-! ## Helper lemmas -/

theorem splitFirst_eq_none_iff (sep : Char) (l : List Char) :
    splitFirst sep l = none ↔ sep ∉ l := by
  induction l with
  | nil => simp [splitFirst]
  | cons c cs ih =>
    by_cases h : c = sep
    · subst h
      simp [splitFirst]
    · have hs : ¬ sep = c := fun e => h e.symm
      simp [splitFirst, h, Option.map_eq_none', ih, hs]

theorem splitFirst_eq_some (sep : Char) (l : List Char) (h : sep ∈ l) :
    splitFirst sep l =
      some (l.takeWhile (· != sep),
            l.drop ((l.takeWhile (· != sep)).length + 1)) := by
  induction l with
  | nil => cases h
  | cons c cs ih =>
    by_cases hc : c = sep
    · subst hc
      simp [splitFirst, List.takeWhile_cons]
    · have hb : (c != sep) = true := by simp [bne_iff_ne, hc]
      have hm : sep ∈ cs := by
        rcases List.mem_cons.mp h with h1 | h2
        · exact absurd h1.symm hc
        · exact h2
      simp [splitFirst, hc, ih hm, List.takeWhile_cons, hb]

theorem parse_key_value_of_not_mem (s : String) (h : '=' ∉ s.data) :
    parse_key_value s = Except.error ("Invalid key-value pair: " ++ s) := by
  have hn := (splitFirst_eq_none_iff '=' s.data).mpr h
  simp [parse_key_value, KeyValue.from_str, splitn2, hn]

theorem parse_key_value_of_mem (s : String) (h : '=' ∈ s.data) :
    parse_key_value s =
      Except.ok ⟨⟨s.data.takeWhile (· != '=')⟩,
                 ⟨s.data.drop ((s.data.takeWhile (· != '=')).length + 1)⟩⟩ := by
  have hs := splitFirst_eq_some '=' s.data h
  simp [parse_key_value, KeyValue.from_str, splitn2, hs]

theorem foldl_insert_eq (body : List KeyValue) (m : String → Option String)
    (k : String) :
    body.foldl
        (fun m kv => fun k => if k = kv.key then some kv.value else m k) m k =
      match body.reverse.find? (fun kv => kv.key == k) with
      | some kv => some kv.value
      | none => m k := by
  induction body generalizing m with
  | nil => simp
  | cons kv rest ih =>
    simp only [List.foldl_cons, List.reverse_cons]
    rw [ih, List.find?_append]
    cases hfind : rest.reverse.find? (fun kv => kv.key == k) with
    | some kv' => simp [Option.or]
    | none =>
      by_cases hk : kv.key = k
      · simp [Option.or, List.find?, hk]
      · have hk' : ¬ k = kv.key := fun e => hk e.symm
        have hb : (kv.key == k) = false := beq_eq_false_iff_ne.mpr hk
        simp [Option.or, List.find?, hb, hk']

/-! ## Claim theorems -/

/-- C5: `parse_key_value` splits at the first `=` only: no `=` means a
validation error; otherwise the key is everything before the first `=` and
the value everything after it (possibly empty, possibly containing more
`=`), with no trimming; `"a=b=c"` gives key `"a"`, value `"b=c"`, and
`"b="` gives key `"b"`, empty value. -/
theorem parse_key_value_spec (s : String) :
    ('=' ∉ s.data →
      parse_key_value s = Except.error ("Invalid key-value pair: " ++ s)) ∧
    ('=' ∈ s.data →
      parse_key_value s =
        Except.ok ⟨⟨s.data.takeWhile (· != '=')⟩,
                   ⟨s.data.drop ((s.data.takeWhile (· != '=')).length + 1)⟩⟩) ∧
    parse_key_value "a=b=c" = Except.ok ⟨"a", "b=c"⟩ ∧
    parse_key_value "b=" = Except.ok ⟨"b", ""⟩ :=
  ⟨fun h => parse_key_value_of_not_mem s h,
   fun h => parse_key_value_of_mem s h, rfl, rfl⟩

/-- Witness for C5 at the concrete inputs `"a=b=c"` and `"a"`. -/
theorem parse_key_value_spec_witness :
    parse_key_value "a=b=c" =
      Except.ok ⟨⟨"a=b=c".data.takeWhile (· != '=')⟩,
                 ⟨"a=b=c".data.drop
                   (("a=b=c".data.takeWhile (· != '=')).length + 1)⟩⟩ ∧
    parse_key_value "a" = Except.error ("Invalid key-value pair: " ++ "a") :=
  ⟨(parse_key_value_spec "a=b=c").2.1 (by decide),
   (parse_key_value_spec "a").1 (by decide)⟩

/-- C10: `parse_key_value` fails exactly when the input has no `=`;
every string with an `=` is accepted, including `"="`, which yields an
empty key and an empty value. -/
theorem parse_key_value_fail_iff (s : String) :
    (exceptIsOk (parse_key_value s) = false ↔ '=' ∉ s.data) ∧
    parse_key_value "=" = Except.ok ⟨"", ""⟩ := by
  refine ⟨⟨?_, ?_⟩, rfl⟩
  · intro hfail
    by_contra hmem
    rw [parse_key_value_of_mem s hmem] at hfail
    simp [exceptIsOk] at hfail
  · intro hn
    rw [parse_key_value_of_not_mem s hn]
    rfl

/-- C4: the form mapping built by `post` maps each key to the value of the
*last* pair in the body list with that key (last occurrence wins, one
entry per distinct key); in particular `a=1 a=2` maps `a` to `2`. -/
theorem post_form_last_wins (body : List KeyValue) (k : String) :
    postFormBody body k =
      (body.reverse.find? (fun kv => kv.key == k)).map (fun kv => kv.value) ∧
    postFormBody [⟨"a", "1"⟩, ⟨"a", "2"⟩] "a" = some "2" := by
  refine ⟨?_, rfl⟩
  rw [postFormBody, foldl_insert_eq]
  cases body.reverse.find? (fun kv => kv.key == k) <;> simp

/-- C9: `post` and `put` build their form body by the same function of the
body list: the two mappings agree on every body list. -/
theorem post_put_form_agree (body : List KeyValue) :
    postFormBody body = putFormBody body := rfl

/-- C1: `parse_url` rejects strings lacking a scheme and authority (e.g.
`"abc"`) with a validation error, and on every well-formed absolute URL
it succeeds and returns exactly the original input string, unmodified
(e.g. `"http://Example.COM/a"` comes back verbatim, not normalized). -/
theorem parse_url_spec (s : String) :
    (isValidUrl s = true → parse_url s = Except.ok s) ∧
    (isValidUrl s = false → exceptIsOk (parse_url s) = false) ∧
    exceptIsOk (parse_url "abc") = false ∧
    parse_url "http://abc.xyz" = Except.ok "http://abc.xyz" ∧
    parse_url "https://httpbin.org/post" = Except.ok "https://httpbin.org/post" ∧
    parse_url "http://Example.COM/a" = Except.ok "http://Example.COM/a" := by
  refine ⟨?_, ?_, rfl, rfl, rfl, rfl⟩
  · intro h
    simp [parse_url, h]
  · intro h
    simp [parse_url, h, exceptIsOk]

/-- Witness for C1 at the concrete inputs `"http://abc.xyz"` (valid) and
`"abc"` (invalid). -/
theorem parse_url_spec_witness :
    parse_url "http://abc.xyz" = Except.ok "http://abc.xyz" ∧
    exceptIsOk (parse_url "abc") = false :=
  ⟨(parse_url_spec "http://abc.xyz").1 (by decide),
   (parse_url_spec "abc").2.1 (by decide)⟩

/-- C2: the body renderer dispatches on the declared content type:
`application/json` is handed to the highlighter with the JSON hint,
`text/plain` is handed to the highlighter with the markup/HTML hint, and
any other declared type — or no content type at all — prints the raw body
with no highlighter invocation. -/
theorem print_body_dispatch (body : String) :
    print_body (some APPLICATION_JSON) body = RenderAction.highlight "json" body ∧
    print_body (some TEXT_PLAIN) body = RenderAction.highlight "html" body ∧
    print_body none body = RenderAction.printRaw body ∧
    (∀ m : Mime, m ≠ APPLICATION_JSON → m ≠ TEXT_PLAIN →
      print_body (some m) body = RenderAction.printRaw body) := by
  refine ⟨rfl, rfl, rfl, ?_⟩
  intro m h1 h2
  simp [print_body, h1, h2]

/-- Witness for C2 at the concrete mime `text/html`. -/
theorem print_body_dispatch_witness :
    print_body (some ⟨"text", "html", []⟩) "x" = RenderAction.printRaw "x" :=
  (print_body_dispatch "x").2.2.2 ⟨"text", "html", []⟩ (by decide) (by decide)

/-- C8: the dispatch in the body renderer compares the parsed MIME value
for exact equality including parameters: any MIME with parameters (such
as `text/plain; charset=utf-8` or `application/json; charset=utf-8`,
both of which parse successfully) matches neither branch, so the body is
printed raw. -/
theorem print_body_exact_params (body : String) :
    (∀ m : Mime, m.params ≠ [] →
      print_body (some m) body = RenderAction.printRaw body) ∧
    parseMime "text/plain; charset=utf-8" =
      some ⟨"text", "plain", [("charset", "utf-8")]⟩ ∧
    print_body (parseMime "text/plain; charset=utf-8") body =
      RenderAction.printRaw body ∧
    parseMime "application/json; charset=utf-8" =
      some ⟨"application", "json", [("charset", "utf-8")]⟩ ∧
    print_body (parseMime "application/json; charset=utf-8") body =
      RenderAction.printRaw body := by
  refine ⟨?_, rfl, rfl, rfl, rfl⟩
  intro m hp
  have h1 : m ≠ APPLICATION_JSON := by
    intro e; rw [e] at hp; exact hp rfl
  have h2 : m ≠ TEXT_PLAIN := by
    intro e; rw [e] at hp; exact hp rfl
  simp [print_body, h1, h2]

/-- Witness for C8 at the concrete mime `text/plain; charset=utf-8`. -/
theorem print_body_exact_params_witness :
    print_body (some ⟨"text", "plain", [("charset", "utf-8")]⟩) "x" =
      RenderAction.printRaw "x" :=
  (print_body_exact_params "x").1 ⟨"text", "plain", [("charset", "utf-8")]⟩
    (by decide)

/-- C3: extracting the content type yields "no content type" (`ok none`)
exactly when the content-type header is absent; when the header is present
but its value is not visible ASCII or does not parse as a MIME type, the
extraction is a fatal failure (an `unwrap` panic), not a fallback. -/
theorem get_content_type_spec (headers : List (String × String)) :
    (get_content_type headers = Except.ok none ↔
      headers.find? (fun h => lowerChars h.1.data == "content-type".data)
        = none) ∧
    (∀ n v,
      headers.find? (fun h => lowerChars h.1.data == "content-type".data)
          = some (n, v) →
      (v.data.all isVisibleAscii = false ∨ parseMime v = none) →
      exceptIsOk (get_content_type headers) = false) := by
  constructor
  · cases hf : headers.find?
        (fun h => lowerChars h.1.data == "content-type".data) with
    | none => simp [get_content_type, hf]
    | some hv =>
      obtain ⟨n, v⟩ := hv
      simp only [get_content_type, hf]
      by_cases ha : v.data.all isVisibleAscii
      · cases hm : parseMime v <;> simp [ha, hm, hf]
      · simp [ha, hf]
  · intro n v hf hbad
    simp only [get_content_type, hf]
    rcases hbad with ha | hm
    · simp [ha, exceptIsOk]
    · by_cases ha : v.data.all isVisibleAscii
      · simp [ha, hm, exceptIsOk]
      · simp [ha, exceptIsOk]

/-- Witness for C3 at a present-but-unparseable header value. -/
theorem get_content_type_spec_witness :
    exceptIsOk (get_content_type [("content-type", "not a mime")]) = false :=
  (get_content_type_spec [("content-type", "not a mime")]).2
    "content-type" "not a mime" (by decide) (Or.inr (by decide))

/-- C6: invoking the CLI with no subcommand prints the fixed
"No HTTP method specified." notice, issues no network request, and exits
with code 0. -/
theorem main_no_subcommand :
    mainRun ⟨none⟩ = ([Action.printLine "No HTTP method specified."], 0) ∧
    (mainRun ⟨none⟩).1.all (fun a => !a.isNetRequest) = true ∧
    (mainRun ⟨none⟩).2 = 0 :=
  ⟨rfl, rfl, rfl⟩

/-- C7: every request issued in one invocation, for every verb, carries
the two default headers configured once at process start:
`x-power-by: Rust` and `user-agent: Rust Httpie`. -/
theorem default_headers_every_request (m : HttpMethod) :
    ("x-power-by", "Rust") ∈ (issuedRequest mainClient m).headers ∧
    ("user-agent", "Rust Httpie") ∈ (issuedRequest mainClient m).headers := by
  cases m <;> simp [issuedRequest, mainClient]

end Httpie
